import Mathlib

/-!
Shallow embedding of `knack/invocation.py` (`CommandInvoker`): the invocation
pipeline of the knack CLI framework.  Pure Python helpers become Lean
functions; the stateful `execute` method becomes a function returning an
explicit result record (event/effect trace, final invocation-state mapping,
the post-run parsed-argument structure, and the outcome).  External
collaborators (command loader, parser, event-bus subscribers, deprecation
lookup, `todict`) are passed in as an explicit environment of functions.
-/

set_option autoImplicit false

namespace Knack

variable {V : Type}

/-! ### String helpers (Python `str` semantics, ASCII-level)

These model the Python string operations used by `invocation.py`:
`str.lower`, `' '.join`, `str.split()` (split on whitespace runs, dropping
empty pieces), `str.startswith('_')`, and the `current[0] == '-'` test. -/

/-- ASCII lower-casing of one character, as Python `str.lower` does on ASCII. -/
def lowerChar (c : Char) : Char :=
  if 'A' ≤ c ∧ c ≤ 'Z' then Char.ofNat (c.toNat + 32) else c

/-- Python `s.lower()` (ASCII fragment). -/
def strLower (s : String) : String := ⟨s.data.map lowerChar⟩

/-- Python `' '.join(parts)`. -/
def joinSpace : List String → String
  | [] => ""
  | [s] => s
  | s :: rest => s ++ " " ++ joinSpace rest

/-- Helper for `pySplit`: walk the characters, accumulating the current
(reversed) token; whitespace ends a token, empty tokens are dropped. -/
def pySplitAux : List Char → List Char → List String
  | [], acc => if acc.isEmpty then [] else [⟨acc.reverse⟩]
  | c :: cs, acc =>
    if c.isWhitespace then
      (if acc.isEmpty then pySplitAux cs [] else ⟨acc.reverse⟩ :: pySplitAux cs [])
    else pySplitAux cs (c :: acc)

/-- Python `s.split()` with no separator: split on whitespace runs,
never producing empty tokens. -/
def pySplit (s : String) : List String := pySplitAux s.data []

/-- Python `key.startswith('_')`. -/
def startsWithUnderscore (s : String) : Bool := s.data.head? == some '_'

/-- Python `current[0] == '-'` guarded by the `IndexError` handler of
`_rudimentary_get_command` (an empty token does not start with a dash). -/
def startsWithDash (s : String) : Bool := s.data.head? == some '-'

/-! ### Invocation State (`self.data`)

`__init__` sets `self.data = initial_data or defaultdict(lambda: None)` and
then `self.data['command'] = 'unknown'`.  A `defaultdict(lambda: None)`
serves `None` for unknown keys; a caller-supplied plain mapping raises
`KeyError` instead.  `defaulted` records whether the mapping has the
`defaultdict` default. -/

/-- A value stored in the invocation-state mapping: Python `None`, a string,
or an arbitrary payload value. -/
inductive DVal (V : Type) where
  | none_
  | str (s : String)
  | val (v : V)
deriving DecidableEq

/-- The in-memory key-value collection for one invocation (`self.data`). -/
structure InvData (V : Type) where
  entries : List (String × DVal V)
  defaulted : Bool
deriving DecidableEq

/-- Replace the binding of `k` (or append it), preserving insertion order,
as Python `d[k] = v` does. -/
def setEntry : List (String × DVal V) → String → DVal V → List (String × DVal V)
  | [], k, v => [(k, v)]
  | (k', v') :: rest, k, v =>
    if k' == k then (k', v) :: rest else (k', v') :: setEntry rest k v

/-- Python `d[k] = v`. -/
def InvData.set (d : InvData V) (k : String) (v : DVal V) : InvData V :=
  { d with entries := setEntry d.entries k v }

/-- Python `d[k]`: a present key yields its value; a missing key yields the
`defaultdict` default `None` when available, otherwise `KeyError k`. -/
def InvData.get (d : InvData V) (k : String) : Except String (DVal V) :=
  match d.entries.find? (fun kv => kv.1 == k) with
  | some kv => Except.ok kv.2
  | none => if d.defaulted then Except.ok DVal.none_ else Except.error k

/-- Constructor lines 49-50: `self.data = initial_data or defaultdict(lambda: None)`
followed by `self.data['command'] = 'unknown'`.  An absent or falsy (empty)
`initial_data` is replaced by a fresh `defaultdict`. -/
def initData (initial : Option (InvData V)) : InvData V :=
  let base : InvData V :=
    match initial with
    | some d => if d.entries.isEmpty then ⟨[], true⟩ else d
    | none => ⟨[], true⟩
  base.set "command" (DVal.str "unknown")

/-! ### Deprecation descriptors

`knack/deprecation.py` is not part of the analysed source; its descriptor
shape is modelled from the spec. -/

/-- Modelled from the spec: a Deprecation Info descriptor from the external
`knack.deprecation` module.  Its `__dict__` carries `object_type`, a
human-readable `message`, the two internal accessor fields `_get_tag` and
`_get_message` (here `tag_accessor` / `message_accessor`), and the remaining
attributes (`fields`). -/
structure DeprecateInfo (V : Type) where
  object_type : String
  message : String
  tag_accessor : V
  message_accessor : V
  fields : List (String × V)
deriving DecidableEq

/-- Modelled from the spec: the synthesized implicit Deprecation Info
(`ImplicitDeprecated` from the external `knack.deprecation` module) holds
the copied fields but not the two internal accessor fields. -/
structure ImplicitDeprecatedInfo (V : Type) where
  object_type : String
  message : String
  fields : List (String × V)
deriving DecidableEq

/-- Source lines 161-165 of `execute`: copy the found descriptor's `__dict__`, override
`object_type` with `'command'`, delete `_get_tag` and `_get_message`, and
build an `ImplicitDeprecated` from the result (the constructor itself is
modelled from the spec, which says it copies the remaining fields). -/
def makeImplicit (d : DeprecateInfo V) : ImplicitDeprecatedInfo V :=
  { object_type := "command", message := d.message, fields := d.fields }

/-- One entry of the deprecation-warning list assembled by `execute`:
an argument-level entry gathered during parsing, the command's explicit
descriptor, or a synthesized implicit descriptor. -/
inductive Warning (V : Type) where
  | arg (message : String)
  | explicitCmd (d : DeprecateInfo V)
  | implicitCmd (d : ImplicitDeprecatedInfo V)
deriving DecidableEq

/-- The `.message` attribute printed for each collected warning. -/
def Warning.message : Warning V → String
  | .arg m => m
  | .explicitCmd d => d.message
  | .implicitCmd d => d.message

def Warning.isArg : Warning V → Bool
  | .arg _ => true
  | _ => false

def Warning.isExplicitCmd : Warning V → Bool
  | .explicitCmd _ => true
  | _ => false

def Warning.isImplicitCmd : Warning V → Bool
  | .implicitCmd _ => true
  | _ => false

/-! ### Commands and the parsed-argument structure -/

/-- The resolved command object (`parsed_args.func`): callable, with a full
space-separated `name`, an optional explicit deprecation descriptor and an
optional table transformer. -/
structure CLICommand (V : Type) where
  name : String
  deprecate_info : Option (DeprecateInfo V)
  handler : List (String × V) → V
  table_transformer : Option V

/-- The parsed-argument record (an `argparse` namespace).  The
framework-internal attributes `_command_validator`, `_argument_validators`,
`_parser` and `_argument_deprecations` are optional; `fields` holds the
remaining (user-argument) entries of `__dict__` in insertion order. -/
structure ParsedNS (V : Type) where
  command : String
  func : CLICommand V
  command_validator : Option Nat
  argument_validators : Option (List Nat)
  parser : Option Nat
  argument_deprecations : Option (List (Warning V))
  fields : List (String × V)

/-! ### `_filter_params` (lines 57-65) -/

/-- Model of `_filter_params`: keep the entries whose key does not start with `'_'`,
then `pop('func', None)` and `pop('command', None)`. -/
def filter_params (args : List (String × V)) : List (String × V) :=
  let params := args.filter (fun kv => !(startsWithUnderscore kv.1))
  let params := params.filter (fun kv => kv.1 != "func")
  params.filter (fun kv => kv.1 != "command")

/-- First-match association lookup, used to state properties of
`filter_params` (Python dict access on the modelled mapping). -/
def lookupKV (d : List (String × V)) (k : String) : Option V :=
  (d.find? (fun kv => kv.1 == k)).map (fun kv => kv.2)

/-! ### `_rudimentary_get_command` (lines 67-78) -/

/-- The scan loop of `_rudimentary_get_command`: consume leading tokens up to
(excluding) the first token starting with `'-'`, lower-casing each consumed
token in place.  Returns the consumed (lower-cased) tokens and the mutated
argument list. -/
def rudimentaryScan : List String → List String × List String
  | [] => ([], [])
  | current :: rest =>
    if startsWithDash current then ([], current :: rest)
    else
      let lowered := strLower current
      let (nouns, rest') := rudimentaryScan rest
      (lowered :: nouns, lowered :: rest')

/-- Model of `_rudimentary_get_command`: the space-joined consumed tokens, plus the
argument list as mutated by the scan. -/
def rudimentary_get_command (args : List String) : String × List String :=
  let (nouns, args') := rudimentaryScan args
  (joinSpace nouns, args')

/-- Source lines 133-134 of `execute`: rewrite a literal first token equal to `help`
(case-insensitively) into `--help`. -/
def normalizeHelp : List String → List String
  | [] => []
  | a :: rest => if strLower a == "help" then "--help" :: rest else a :: rest

/-! ### Validation chain (lines 80-107)

Validators are external callables.  A validator application receives the
whole parsed structure and returns the (possibly mutated) structure plus
optionally a raised error; `VErr.cli` is a raised `CLIError`, `VErr.other`
any other exception (carrying `str(err)`). -/

/-- An error raised by a validator. -/
inductive VErr where
  | cli (message : String)
  | other (message : String)
deriving DecidableEq

/-- A record of one validator invocation: which validator ran and the parsed
structure it received. -/
structure VCall (V : Type) where
  vid : Nat
  seen : ParsedNS V

/-- The semantics of the validator callables: state passing plus an optional
raised error (the returned structure is the state at return or raise time). -/
def ValidatorSem (V : Type) := Nat → ParsedNS V → ParsedNS V × Option VErr

/-- Model of `_validate_cmd_level` (lines 80-86): call the validator (if truthy) with
the whole structure, then delete `_command_validator` (ignoring absence);
the deletion is skipped when the validator raises. -/
def validate_cmd_level (app : ValidatorSem V) (ns : ParsedNS V)
    (cmd_validator : Option Nat) : List (VCall V) × ParsedNS V × Option VErr :=
  match cmd_validator with
  | some v =>
    let r := app v ns
    match r.2 with
    | some e => ([⟨v, ns⟩], r.1, some e)
    | none => ([⟨v, ns⟩], { r.1 with command_validator := none }, none)
  | none => ([], { ns with command_validator := none }, none)

/-- The `for validator in ...` loop of `_validate_arg_level` (lines 89-90):
run the validators in order, threading the mutated structure, stopping at
the first raise. -/
def runArgValidators (app : ValidatorSem V) :
    List Nat → ParsedNS V → List (VCall V) × ParsedNS V × Option VErr
  | [], ns => ([], ns, none)
  | v :: vs, ns =>
    let r := app v ns
    match r.2 with
    | some e => ([⟨v, ns⟩], r.1, some e)
    | none =>
      let rest := runArgValidators app vs r.1
      (⟨v, ns⟩ :: rest.1, rest.2)

/-- Model of `_validate_arg_level` (lines 88-94): run every validator of
`getattr(ns, '_argument_validators', [])`, then delete the attribute
(ignoring absence); the deletion is skipped when a validator raises. -/
def validate_arg_level (app : ValidatorSem V) (ns : ParsedNS V) :
    List (VCall V) × ParsedNS V × Option VErr :=
  let r := runArgValidators app (ns.argument_validators.getD []) ns
  match r.2.2 with
  | some e => (r.1, r.2.1, some e)
  | none => (r.1, { r.2.1 with argument_validators := none }, none)

/-- The `try` block of `_validation` (lines 97-102): dispatch on presence of
`_command_validator`. -/
def validation_try (app : ValidatorSem V) (ns : ParsedNS V) :
    List (VCall V) × ParsedNS V × Option VErr :=
  match ns.command_validator with
  | some v => validate_cmd_level app ns (some v)
  | none => validate_arg_level app ns

/-- The outcome of `_validation`: normal return, a re-raised `CLIError`, or
`validation_error` reported on a parser (identified by index). -/
inductive VResult where
  | ok
  | cliError (message : String)
  | validationError (p : Nat) (message : String)
deriving DecidableEq

/-- Model of `_validation` (lines 96-107): run the try block; re-raise `CLIError`
unchanged; convert any other exception into
`getattr(parsed_ns, '_parser', self.parser).validation_error(str(err))`,
reading `_parser` from the structure as it is at raise time. -/
def validation (app : ValidatorSem V) (selfParser : Nat) (ns : ParsedNS V) :
    List (VCall V) × ParsedNS V × VResult :=
  let r := validation_try app ns
  (r.1, r.2.1,
    match r.2.2 with
    | none => VResult.ok
    | some (.cli m) => VResult.cliError m
    | some (.other m) => VResult.validationError (r.2.1.parser.getD selfParser) m)

/-! ### Implicit deprecation search (lines 153-165) -/

/-- The `while path_comps and not implicit_deprecate_info` loop body
(lines 156-158), written with explicit fuel: look up the space-joined
remaining path; on a miss drop the last component and retry.  The fuel is
the initial list length, which bounds the loop exactly since each iteration
shortens the list by one. -/
def implicitSearchGo (lookup : String → Option (DeprecateInfo V)) :
    Nat → List String → Option (DeprecateInfo V)
  | _, [] => none
  | 0, _ :: _ => none
  | fuel + 1, a :: as =>
    match lookup (joinSpace (a :: as)) with
    | some d => some d
    | none => implicitSearchGo lookup fuel (a :: as).dropLast

/-- Lines 154-158: search the ancestor path list outward for deprecation
metadata. -/
def searchImplicit (lookup : String → Option (DeprecateInfo V))
    (comps : List String) : Option (DeprecateInfo V) :=
  implicitSearchGo lookup comps.length comps

/-- Lines 154-165 as one function: ancestors are `cmd.name.split()[:-1]`;
on a match, synthesize the implicit descriptor. -/
def resolveImplicitDeprecation (lookup : String → Option (DeprecateInfo V))
    (name : String) : Option (ImplicitDeprecatedInfo V) :=
  (searchImplicit lookup (pySplit name).dropLast).map makeImplicit

/-- Lines 150-151: the optional explicit command-level deprecation entry. -/
def explicitPart (cmd : CLICommand V) : List (Warning V) :=
  match cmd.deprecate_info with
  | some d => [Warning.explicitCmd d]
  | none => []

/-- Lines 160-165: the optional synthesized implicit deprecation entry. -/
def implicitPart (lookup : String → Option (DeprecateInfo V))
    (cmd : CLICommand V) : List (Warning V) :=
  match resolveImplicitDeprecation lookup cmd.name with
  | some i => [Warning.implicitCmd i]
  | none => []

/-- Lines 149-165: assemble the deprecation-warning list by appending onto
`getattr(parsed_args, '_argument_deprecations', [])`.  The appends mutate
the attribute's list object in place, so when the attribute exists the
parsed structure ends up holding the extended list; when it is absent the
fresh `[]` default is extended instead and the structure is unchanged. -/
def collect_deprecations (lookup : String → Option (DeprecateInfo V))
    (ns : ParsedNS V) : List (Warning V) × ParsedNS V :=
  let deps := ns.argument_deprecations.getD [] ++ explicitPart ns.func
    ++ implicitPart lookup ns.func
  (deps,
    if ns.argument_deprecations.isSome
    then { ns with argument_deprecations := some deps }
    else ns)

/-! ### `execute` (lines 109-181) -/

/-- Modelled from the spec: `knack.util.CommandResultItem` is a payload, a
display transformer and a flag copied from the invocation state's
`query_active` entry. -/
structure CommandResultItem (V : Type) where
  result : V
  table_transformer : Option V
  is_query_active : DVal V
deriving DecidableEq

/-- One observable step of a run: a raised event (with the payload data the
claims are about), or an effect (autocomplete enabling, welcome screen,
color state, a printed warning message, the handler call).  For the
`transform-result` and `filter-result` events, `observed` is the value of
the shared mutable payload `{result}` at the moment the event is raised,
i.e. the value the event's subscribers receive. -/
inductive TraceItem (V : Type) where
  | preCmdTblCreate (args : List String)
  | postCmdTblCreate
  | cmdTblLoaded
  | enableAutocomplete
  | showWelcome
  | preParseArgs (args : List String)
  | postParseArgs (command : String)
  | validatorCall (v : Nat)
  | colorInit
  | printWarning (message : String)
  | colorDeinit
  | handlerInvoked (params : List (String × V))
  | transformResult (observed : V)
  | filterResult (observed : V)

/-- How a run of `execute` ends: the `return None` of the empty-args branch,
a `CommandResultItem`, a propagated `ParseError`, a propagated `CLIError`, a
`validation_error` report, or a `KeyError` on a mapping access. -/
inductive Outcome (V : Type) where
  | noResult
  | ok (item : CommandResultItem V)
  | parseError
  | cliError (message : String)
  | validationError (p : Nat) (message : String)
  | keyError (k : String)
deriving DecidableEq

/-- The full observable result of one `execute` run. -/
structure ExecResult (V : Type) where
  trace : List (TraceItem V)
  data : InvData V
  ns : Option (ParsedNS V)
  outcome : Outcome V

/-- The external collaborators of `CommandInvoker`, as explicit functions:
the commands loader (`load_command_table` / `load_arguments`), the parser
(`parse_args`, fed with the loaded table and argument declarations), the
validator callables, the deprecation lookup (`resolve_deprecate_info`),
`todict`, and the combined effect of the subscribers of the two
result-rewriting events.  `selfParser` identifies `self.parser`. -/
structure Env (V : Type) where
  load_command_table : List String → List (String × CLICommand V)
  load_arguments : String → List (String × V)
  parse_args : List (String × CLICommand V) → List (String × V) → List String →
    Except Unit (ParsedNS V)
  app_validator : ValidatorSem V
  resolve_deprecate_info : String → Option (DeprecateInfo V)
  todict : V → V
  transform_hook : V → V
  filter_hook : V → V
  selfParser : Nat

/-- Model of `execute` from the `if not args` check onward (lines 127-181), given the
already-built command table, argument declarations and (scan-mutated)
argument list.  The returned trace is the suffix after the
`command-table-loaded` event. -/
def executeCore (env : Env V) (data0 : InvData V)
    (cmd_tbl : List (String × CLICommand V)) (schema : List (String × V))
    (args1 : List String) : ExecResult V :=
  if args1.isEmpty then
    { trace := [TraceItem.enableAutocomplete, TraceItem.showWelcome],
      data := data0, ns := none, outcome := Outcome.noResult }
  else
    let args2 := normalizeHelp args1
    match env.parse_args cmd_tbl schema args2 with
    | Except.error _ =>
      { trace := [TraceItem.enableAutocomplete, TraceItem.preParseArgs args2],
        data := data0, ns := none, outcome := Outcome.parseError }
    | Except.ok parsed_args =>
      let vr := validation env.app_validator env.selfParser parsed_args
      let calls := vr.1
      let ns1 := vr.2.1
      let tpre := [TraceItem.enableAutocomplete, TraceItem.preParseArgs args2,
          TraceItem.postParseArgs parsed_args.command]
        ++ calls.map (fun c => TraceItem.validatorCall c.vid)
      match vr.2.2 with
      | VResult.cliError m =>
        { trace := tpre, data := data0, ns := some ns1, outcome := Outcome.cliError m }
      | VResult.validationError p m =>
        { trace := tpre, data := data0, ns := some ns1,
          outcome := Outcome.validationError p m }
      | VResult.ok =>
        let data1 := data0.set "command" (DVal.str ns1.command)
        let params := filter_params ns1.fields
        let cd := collect_deprecations env.resolve_deprecate_info ns1
        let deps := cd.1
        let ns2 := cd.2
        let raw := ns2.func.handler params
        let r0 := env.todict raw
        let r1 := env.transform_hook r0
        let r2 := env.filter_hook r1
        let tfull := tpre ++ [TraceItem.colorInit]
          ++ deps.map (fun d => TraceItem.printWarning d.message)
          ++ [TraceItem.colorDeinit, TraceItem.handlerInvoked params,
              TraceItem.transformResult r0, TraceItem.filterResult r1]
        match (cmd_tbl.find? (fun kv => kv.1 == ns1.command)).map (fun kv => kv.2) with
        | none =>
          { trace := tfull, data := data1, ns := some ns2,
            outcome := Outcome.keyError ns1.command }
        | some entry =>
          match data1.get "query_active" with
          | Except.error k =>
            { trace := tfull, data := data1, ns := some ns2,
              outcome := Outcome.keyError k }
          | Except.ok qa =>
            { trace := tfull, data := data1, ns := some ns2,
              outcome := Outcome.ok
                { result := r2, table_transformer := entry.table_transformer,
                  is_query_active := qa } }

/-- Model of `execute` (lines 109-181): raise `pre-command-table-create`, build the
command table, run the rudimentary command scan (mutating the argument
list), load argument declarations, raise `post-command-table-create` and
`command-table-loaded`, then continue with `executeCore`. -/
def execute (env : Env V) (initial : Option (InvData V)) (args : List String) :
    ExecResult V :=
  let data0 := initData initial
  let cmd_tbl := env.load_command_table args
  let rc := rudimentary_get_command args
  let schema := env.load_arguments rc.1
  let core := executeCore env data0 cmd_tbl schema rc.2
  { core with
    trace := [TraceItem.preCmdTblCreate args, TraceItem.postCmdTblCreate,
      TraceItem.cmdTblLoaded] ++ core.trace }

/-! ### Derived observations used in theorem statements -/

/-- The warning message carried by a trace item, if it is a printed warning. -/
def traceWarning : TraceItem V → Option String
  | TraceItem.printWarning m => some m
  | _ => none

/-- The handler input and result value of a successful run, as computed on
the post-deprecation parsed structure: `todict(parsed_args.func(params))`. -/
def rawResult (env : Env V) (ns1 : ParsedNS V) : V :=
  env.todict
    ((collect_deprecations env.resolve_deprecate_info ns1).2.func.handler
      (filter_params ns1.fields))

/-! ### Concrete fixtures for witnesses and counterexamples -/

/-- A deprecation descriptor attached to the ancestor group `"grp"`. -/
def wGroupInfo : DeprecateInfo Nat :=
  { object_type := "command_group", message := "grp is deprecated",
    tag_accessor := 0, message_accessor := 0, fields := [("target", 5)] }

/-- A concrete command `"grp cmd"` with no explicit deprecation. -/
def wCmd : CLICommand Nat :=
  { name := "grp cmd", deprecate_info := none,
    handler := fun _ => 42, table_transformer := none }

/-- A concrete parsed-argument structure for `"grp cmd"`. -/
def wNs : ParsedNS Nat :=
  { command := "grp cmd", func := wCmd, command_validator := none,
    argument_validators := none, parser := none,
    argument_deprecations := some [], fields := [("count", 3), ("_internal", 9)] }

/-- Fixture: `wNs` after the argument-level validation pass removed the (absent)
validator list. -/
def wNs1 : ParsedNS Nat := { wNs with argument_validators := none }

/-- A concrete collaborator environment driving a successful run. -/
def wEnv : Env Nat :=
  { load_command_table := fun _ => [("grp cmd", wCmd)],
    load_arguments := fun _ => [],
    parse_args := fun _ _ _ => Except.ok wNs,
    app_validator := fun _ ns => (ns, none),
    resolve_deprecate_info := fun _ => none,
    todict := fun v => v + 1,
    transform_hook := fun v => v * 10,
    filter_hook := fun v => v + 5,
    selfParser := 0 }

/-- Fixture: `wEnv` with deprecation metadata on the ancestor group `"grp"`. -/
def wEnvDep : Env Nat :=
  { wEnv with
    resolve_deprecate_info := fun s => if s = "grp" then some wGroupInfo else none }

/-- A parsed structure carrying a command-level validator (index 7). -/
def wNsV : ParsedNS Nat := { wNs with command_validator := some 7 }

/-- Fixture: `wEnv` with a command-level validator that raises a non-CLI exception
with message `"boom"`. -/
def wEnvV : Env Nat :=
  { wEnv with
    parse_args := fun _ _ _ => Except.ok wNsV,
    app_validator := fun _ ns => (ns, some (VErr.other "boom")) }

/-- A parsed structure with two argument-level validators. -/
def wNsA : ParsedNS Nat := { wNs with argument_validators := some [4, 5] }

/-- Validator semantics where every validator returns normally. -/
def wAppOk : ValidatorSem Nat := fun _ ns => (ns, none)

/-- Counterexample fixture: explicit deprecation on the group `"g"`. -/
def cxGroupInfo : DeprecateInfo Nat :=
  { object_type := "command_group", message := "group g is deprecated",
    tag_accessor := 0, message_accessor := 0, fields := [("target", 5)] }

/-- Counterexample fixture: explicit command-level deprecation on `"g c"`. -/
def cxCmdInfo : DeprecateInfo Nat :=
  { object_type := "command", message := "command g c is deprecated",
    tag_accessor := 0, message_accessor := 0, fields := [] }

/-- Counterexample fixture: command `"g c"` carrying `cxCmdInfo`. -/
def cxCmd : CLICommand Nat :=
  { name := "g c", deprecate_info := some cxCmdInfo,
    handler := fun _ => 0, table_transformer := none }

/-- Counterexample fixture: parsed structure for `"g c"`. -/
def cxNs : ParsedNS Nat :=
  { command := "g c", func := cxCmd, command_validator := none,
    argument_validators := none, parser := none,
    argument_deprecations := some [], fields := [] }

/-- Counterexample fixture: deprecation lookup that knows the group `"g"`. -/
def cxLookup : String → Option (DeprecateInfo Nat) :=
  fun s => if s = "g" then some cxGroupInfo else none

/-- Counterexample fixture: the implicit descriptor synthesized from
`cxGroupInfo`. -/
def cxImplicitInfo : ImplicitDeprecatedInfo Nat :=
  { object_type := "command", message := "group g is deprecated",
    fields := [("target", 5)] }

/-- Counterexample fixture: a caller-supplied plain (non-defaultdict)
`initial_data` mapping. -/
def cxInitial : InvData Nat := { entries := [("seed", DVal.val 1)], defaulted := false }

/-- Witness fixture: lookup with deprecation metadata on group `"vm"`. -/
def wVmLookup : String → Option (DeprecateInfo Nat) :=
  fun s => if s = "vm" then some wGroupInfo else none

/-! ## Helper lemmas -/

/-- Helper: `find?` is unchanged by filtering with a predicate implied by the search
predicate. -/
theorem find?_filter_of_imp {α : Type} (p q : α → Bool) (l : List α)
    (h : ∀ x, p x = true → q x = true) :
    (l.filter q).find? p = l.find? p := by
  induction l with
  | nil => rfl
  | cons x xs ih =>
    rw [List.filter_cons]
    by_cases hq : q x = true
    · rw [if_pos hq, List.find?_cons, List.find?_cons]
      cases hp : p x
      · exact ih
      · rfl
    · have hp : p x = false := by
        cases hpx : p x
        · rfl
        · exact absurd (h x hpx) hq
      rw [if_neg hq, List.find?_cons] at *
      rw [hp] at *
      exact ih

/-- Helper: `find?` over a filtered list fails when the search predicate contradicts
the filter predicate. -/
theorem find?_filter_of_excl {α : Type} (p q : α → Bool) (l : List α)
    (h : ∀ x, q x = true → p x = false) :
    (l.filter q).find? p = none := by
  rw [List.find?_eq_none]
  intro x hx
  have hq := (List.mem_filter.mp hx).2
  rw [h x hq]
  exact Bool.false_ne_true

/-! ## C3: Parameter Filter -/

/-- C3. Parameter Filter correctness: `filter_params` keeps exactly the
entries whose key does not start with `'_'`, except `func` and `command`,
each bound to its original value (first-match lookup is preserved); keys
starting with `'_'`, the `func` key and the `command` key are absent from
the result; and the result is a sublist of the input, so the remaining
entries keep the insertion order of the source structure.  The function is
a pure Lean function, so it is deterministic and side-effect free. -/
theorem filter_params_correct (d : List (String × V)) :
    (∀ k, startsWithUnderscore k = false → k ≠ "func" → k ≠ "command" →
      lookupKV (filter_params d) k = lookupKV d k)
    ∧ lookupKV (filter_params d) "func" = none
    ∧ lookupKV (filter_params d) "command" = none
    ∧ (∀ k, startsWithUnderscore k = true → lookupKV (filter_params d) k = none)
    ∧ (filter_params d).Sublist d := by
  have hmemu : ∀ x ∈ filter_params d, startsWithUnderscore x.1 = false := by
    intro x hx
    simp only [filter_params, List.mem_filter] at hx
    simpa using hx.1.1.2
  have hmemf : ∀ x ∈ filter_params d, x.1 ≠ "func" := by
    intro x hx
    simp only [filter_params, List.mem_filter] at hx
    simpa using hx.1.2
  have hmemc : ∀ x ∈ filter_params d, x.1 ≠ "command" := by
    intro x hx
    simp only [filter_params, List.mem_filter] at hx
    simpa using hx.2
  refine ⟨?_, ?_, ?_, ?_, ?_⟩
  · intro k hu hf hc
    have h1 : ∀ x : String × V, (x.1 == k) = true → (!(startsWithUnderscore x.1)) = true := by
      intro x hx
      have hk : x.1 = k := by simpa using hx
      simp [hk, hu]
    have h2 : ∀ x : String × V, (x.1 == k) = true → (x.1 != "func") = true := by
      intro x hx
      have hk : x.1 = k := by simpa using hx
      simp [hk, hf]
    have h3 : ∀ x : String × V, (x.1 == k) = true → (x.1 != "command") = true := by
      intro x hx
      have hk : x.1 = k := by simpa using hx
      simp [hk, hc]
    have hfind : (filter_params d).find? (fun kv => kv.1 == k)
        = d.find? (fun kv => kv.1 == k) := by
      simp only [filter_params]
      rw [find?_filter_of_imp _ _ _ h3, find?_filter_of_imp _ _ _ h2,
        find?_filter_of_imp _ _ _ h1]
    simp [lookupKV, hfind]
  · have h0 : (filter_params d).find? (fun kv => kv.1 == "func") = none :=
      List.find?_eq_none.mpr (by
        intro x hx
        simpa using hmemf x hx)
    simp [lookupKV, h0]
  · have h0 : (filter_params d).find? (fun kv => kv.1 == "command") = none :=
      List.find?_eq_none.mpr (by
        intro x hx
        simpa using hmemc x hx)
    simp [lookupKV, h0]
  · intro k hk
    have h0 : (filter_params d).find? (fun kv => kv.1 == k) = none :=
      List.find?_eq_none.mpr (by
        intro x hx hbeq
        have hx1 : x.1 = k := by simpa using hbeq
        have hfalse := hmemu x hx
        rw [hx1, hk] at hfalse
        cases hfalse)
    simp [lookupKV, h0]
  · simp only [filter_params]
    exact ((List.filter_sublist _).trans (List.filter_sublist _)).trans
      (List.filter_sublist _)

/-- Witness for C3 at a concrete parsed-argument mapping. -/
theorem filter_params_correct_witness :
    startsWithUnderscore "name" = false
    ∧ lookupKV (filter_params [("name", (1 : Nat)), ("_hidden", 2), ("func", 3),
        ("command", 4)]) "name"
      = lookupKV [("name", (1 : Nat)), ("_hidden", 2), ("func", 3), ("command", 4)] "name" :=
  ⟨by decide,
    (filter_params_correct [("name", (1 : Nat)), ("_hidden", 2), ("func", 3),
      ("command", 4)]).1 "name" (by decide) (by decide) (by decide)⟩

/-! ## C1: Deprecation Resolver -/

/-- If every non-empty truncation of the path misses, the search loop
returns nothing. -/
theorem implicitSearchGo_eq_none (lookup : String → Option (DeprecateInfo V)) :
    ∀ (fuel : Nat) (l : List String), l.length ≤ fuel →
      (∀ k, 0 < k → k ≤ l.length → lookup (joinSpace (l.take k)) = none) →
      implicitSearchGo lookup fuel l = none := by
  intro fuel
  induction fuel with
  | zero =>
    intro l hl _
    cases l with
    | nil => rfl
    | cons a as => simp at hl
  | succ n ih =>
    intro l hl h
    cases l with
    | nil => rfl
    | cons a as =>
      have h1 : lookup (joinSpace (a :: as)) = none := by
        have := h (a :: as).length (by simp) (le_refl _)
        rwa [List.take_length] at this
      simp only [implicitSearchGo, h1]
      apply ih
      · rw [List.length_dropLast]
        simp only [List.length_cons] at hl ⊢
        omega
      · intro k hk0 hkl
        rw [List.length_dropLast] at hkl
        rw [List.dropLast_eq_take, List.take_take]
        have hmin : min k ((a :: as).length - 1) = k := by omega
        rw [hmin]
        exact h k hk0 (by omega)

/-- If the `k`-element truncation matches and every longer truncation
misses, the search loop returns that (deepest) match. -/
theorem implicitSearchGo_eq_some (lookup : String → Option (DeprecateInfo V)) :
    ∀ (fuel : Nat) (l : List String) (k : Nat) (d : DeprecateInfo V),
      l.length ≤ fuel → 0 < k → k ≤ l.length →
      lookup (joinSpace (l.take k)) = some d →
      (∀ j, k < j → j ≤ l.length → lookup (joinSpace (l.take j)) = none) →
      implicitSearchGo lookup fuel l = some d := by
  intro fuel
  induction fuel with
  | zero =>
    intro l k d hl hk0 hkl _ _
    cases l with
    | nil => simp at hkl; omega
    | cons a as => simp at hl
  | succ n ih =>
    intro l k d hl hk0 hkl hm habove
    cases l with
    | nil => simp at hkl; omega
    | cons a as =>
      by_cases hk : k = (a :: as).length
      · subst hk
        rw [List.take_length] at hm
        simp only [implicitSearchGo, hm]
      · have hklt : k < (a :: as).length := lt_of_le_of_ne hkl hk
        have h1 : lookup (joinSpace (a :: as)) = none := by
          have := habove (a :: as).length hklt (le_refl _)
          rwa [List.take_length] at this
        simp only [implicitSearchGo, h1]
        apply ih _ k d
        · rw [List.length_dropLast]
          simp only [List.length_cons] at hl ⊢
          omega
        · exact hk0
        · rw [List.length_dropLast]
          omega
        · rw [List.dropLast_eq_take, List.take_take]
          have hmin : min k ((a :: as).length - 1) = k := by omega
          rw [hmin]
          exact hm
        · intro j hj hj2
          rw [List.length_dropLast] at hj2
          rw [List.dropLast_eq_take, List.take_take]
          have hmin : min j ((a :: as).length - 1) = j := by omega
          rw [hmin]
          exact habove j hj (by omega)

/-- C1. Deprecation Resolver correctness: the resolver drops the final token
of the command name (`cmd.name.split()[:-1]`), then repeatedly looks up the
space-joined remaining path, dropping the last token on each miss.  If no
truncation of the ancestor path carries metadata it returns nothing (no
implicit warning); if some truncation matches and all longer (deeper)
truncations miss — i.e. the deepest matching ancestor group — it returns an
implicit descriptor that copies the found descriptor's fields, overrides
`object_type` with `"command"`, and carries no accessor fields. -/
theorem deprecation_resolver_correct (lookup : String → Option (DeprecateInfo V))
    (name : String) :
    ((∀ k, 0 < k → k ≤ ((pySplit name).dropLast).length →
        lookup (joinSpace (((pySplit name).dropLast).take k)) = none) →
      resolveImplicitDeprecation lookup name = none)
    ∧ (∀ k d, 0 < k → k ≤ ((pySplit name).dropLast).length →
        lookup (joinSpace (((pySplit name).dropLast).take k)) = some d →
        (∀ j, k < j → j ≤ ((pySplit name).dropLast).length →
          lookup (joinSpace (((pySplit name).dropLast).take j)) = none) →
        resolveImplicitDeprecation lookup name
          = some { object_type := "command", message := d.message, fields := d.fields }) := by
  constructor
  · intro h
    unfold resolveImplicitDeprecation searchImplicit
    rw [implicitSearchGo_eq_none lookup _ _ (le_refl _) h]
    rfl
  · intro k d hk0 hkl hm habove
    unfold resolveImplicitDeprecation searchImplicit
    rw [implicitSearchGo_eq_some lookup _ _ k d (le_refl _) hk0 hkl hm habove]
    rfl

/-- Witness for C1: resolving `"vm create"` against a lookup that only knows
the group `"vm"` yields the synthesized implicit descriptor. -/
theorem deprecation_resolver_correct_witness :
    resolveImplicitDeprecation wVmLookup "vm create"
      = some { object_type := "command", message := wGroupInfo.message, fields := wGroupInfo.fields } := by
  have hlen : (((pySplit "vm create").dropLast)).length = 1 := by decide
  exact (deprecation_resolver_correct wVmLookup "vm create").2 1 wGroupInfo
    (by decide) (by decide) (by decide)
    (by
      intro j hj hj2
      rw [hlen] at hj2
      omega)

/-! ## C4: Validation Chain -/

/-- The validator ids invoked by the argument-level loop are an in-order
prefix of the validator list. -/
theorem runArgValidators_vid_take (app : ValidatorSem V) :
    ∀ (vs : List Nat) (ns : ParsedNS V),
      (runArgValidators app vs ns).1.map VCall.vid
        = vs.take (runArgValidators app vs ns).1.length := by
  intro vs
  induction vs with
  | nil => intro ns; rfl
  | cons v vs ih =>
    intro ns
    simp only [runArgValidators]
    cases happ : (app v ns).2 with
    | none => simp [ih]
    | some e => simp

/-- When the loop finishes without a raise, every validator of the list ran,
in order. -/
theorem runArgValidators_vid_complete (app : ValidatorSem V) :
    ∀ (vs : List Nat) (ns : ParsedNS V),
      (runArgValidators app vs ns).2.2 = none →
      (runArgValidators app vs ns).1.map VCall.vid = vs := by
  intro vs
  induction vs with
  | nil => intro ns _; rfl
  | cons v vs ih =>
    intro ns h
    simp only [runArgValidators] at h ⊢
    cases happ : (app v ns).2 with
    | none =>
      simp only [happ] at h ⊢
      simp [ih _ h]
    | some e => simp [happ] at h


/-- The first argument-level validator invocation receives the structure the
loop started from. -/
theorem runArgValidators_first (app : ValidatorSem V) (vs : List Nat)
    (ns : ParsedNS V) (c : VCall V) (cs : List (VCall V))
    (h : (runArgValidators app vs ns).1 = c :: cs) : c.seen = ns := by
  cases vs with
  | nil => simp [runArgValidators] at h
  | cons v vs =>
    simp only [runArgValidators] at h
    cases happ : (app v ns).2 with
    | none =>
      simp only [happ, List.cons.injEq] at h
      rw [← h.1]
    | some e =>
      simp only [happ, List.cons.injEq] at h
      rw [← h.1]

/-- Each later argument-level invocation receives the structure returned by
the previous validator. -/
theorem runArgValidators_chain (app : ValidatorSem V) :
    ∀ (vs : List Nat) (ns : ParsedNS V) (i : Nat) (c1 c2 : VCall V),
      (runArgValidators app vs ns).1.get? i = some c1 →
      (runArgValidators app vs ns).1.get? (i + 1) = some c2 →
      c2.seen = (app c1.vid c1.seen).1 := by
  intro vs
  induction vs with
  | nil => intro ns i c1 c2 h1 _; simp [runArgValidators] at h1
  | cons v vs ih =>
    intro ns i c1 c2 h1 h2
    simp only [runArgValidators] at h1 h2
    cases happ : (app v ns).2 with
    | some e =>
      simp only [happ] at h1 h2
      cases i with
      | zero => simp at h2
      | succ j => simp at h1
    | none =>
      simp only [happ] at h1 h2
      cases i with
      | zero =>
        simp only [List.get?_cons_zero, Option.some.injEq] at h1
        simp only [List.get?_cons_succ] at h2
        cases hr : (runArgValidators app vs (app v ns).1).1 with
        | nil => rw [hr] at h2; simp at h2
        | cons c t =>
          rw [hr] at h2
          simp only [List.get?_cons_zero, Option.some.injEq] at h2
          rw [← h1, ← h2]
          exact runArgValidators_first app vs (app v ns).1 c t hr
      | succ j =>
        simp only [List.get?_cons_succ] at h1 h2
        exact ih _ j c1 c2 h1 h2

/-- C4. Validation Chain exclusivity and one-shot behaviour: when a
command-level validator is attached, it is invoked exactly once, receiving
the entire parsed structure, and (when the pass returns normally) the
validator reference is removed from the structure; no argument-level
validator runs in that pass.  Otherwise the validators of the attached
argument-validator list are invoked in list order — the first receives the
full structure, each later one the structure left by its predecessor — and
on normal return the whole list ran and the list reference is removed.  The
invocation list is exactly one command-level call or exactly the
argument-level calls, never both. -/
theorem validation_chain_exclusive (app : ValidatorSem V) (p : Nat)
    (ns : ParsedNS V) (calls : List (VCall V)) (ns2 : ParsedNS V) (res : VResult)
    (h : validation app p ns = (calls, ns2, res)) :
    (∀ v, ns.command_validator = some v →
      calls = [⟨v, ns⟩] ∧ (res = VResult.ok → ns2.command_validator = none))
    ∧ (ns.command_validator = none →
      calls.map VCall.vid = (ns.argument_validators.getD []).take calls.length
      ∧ (res = VResult.ok →
          calls.map VCall.vid = ns.argument_validators.getD []
          ∧ ns2.argument_validators = none)
      ∧ (∀ c cs, calls = c :: cs → c.seen = ns)
      ∧ (∀ i c1 c2, calls.get? i = some c1 → calls.get? (i + 1) = some c2 →
          c2.seen = (app c1.vid c1.seen).1)) := by
  constructor
  · intro v hv
    simp only [validation, validation_try, hv, validate_cmd_level] at h
    cases happ : (app v ns).2 with
    | none =>
      simp only [happ, Prod.mk.injEq] at h
      obtain ⟨h1, h2, h3⟩ := h
      subst h1; subst h2; subst h3
      exact ⟨rfl, fun _ => rfl⟩
    | some e =>
      simp only [happ, Prod.mk.injEq] at h
      obtain ⟨h1, h2, h3⟩ := h
      subst h1; subst h2; subst h3
      refine ⟨rfl, fun hres => ?_⟩
      cases e <;> simp at hres
  · intro hv
    simp only [validation, validation_try, hv, validate_arg_level] at h
    cases hr : (runArgValidators app (ns.argument_validators.getD []) ns).2.2 with
    | none =>
      simp only [hr, Prod.mk.injEq] at h
      obtain ⟨h1, h2, h3⟩ := h
      subst h1; subst h2; subst h3
      refine ⟨runArgValidators_vid_take app _ ns, fun _ => ?_, ?_, ?_⟩
      · exact ⟨runArgValidators_vid_complete app _ ns hr, rfl⟩
      · intro c cs hc
        exact runArgValidators_first app _ ns c cs hc
      · intro i c1 c2 h1 h2
        exact runArgValidators_chain app _ ns i c1 c2 h1 h2
    | some e =>
      simp only [hr, Prod.mk.injEq] at h
      obtain ⟨h1, h2, h3⟩ := h
      subst h1; subst h2; subst h3
      refine ⟨runArgValidators_vid_take app _ ns, fun hres => ?_, ?_, ?_⟩
      · cases e <;> simp at hres
      · intro c cs hc
        exact runArgValidators_first app _ ns c cs hc
      · intro i c1 c2 h1 h2
        exact runArgValidators_chain app _ ns i c1 c2 h1 h2

/-- Witness for C4: two argument-level validators (and no command-level
validator) run in order and the list reference is removed. -/
theorem validation_chain_exclusive_witness :
    (validation wAppOk 0 wNsA).1.map VCall.vid = [4, 5]
    ∧ ((validation wAppOk 0 wNsA).2.1).argument_validators = none := by
  have h := (validation_chain_exclusive wAppOk 0 wNsA (validation wAppOk 0 wNsA).1
    (validation wAppOk 0 wNsA).2.1 (validation wAppOk 0 wNsA).2.2 rfl).2 rfl
  exact ⟨(h.2.1 rfl).1, (h.2.1 rfl).2⟩

/-! ## C5: Validator error conversion -/

/-- C5. Validator error conversion: when the run reaches validation and a
validator raises, a `CLIError` propagates unchanged out of `execute`, while
any other exception is converted into a validation failure whose message
equals the original exception's message, reported through the parsed
structure's `_parser` if present and otherwise through the top-level
parser. -/
theorem validator_error_conversion (env : Env V) (initial : Option (InvData V))
    (args : List String) (ns : ParsedNS V) (calls : List (VCall V))
    (nsR : ParsedNS V) (e : VErr)
    (h1 : (rudimentary_get_command args).2.isEmpty = false)
    (h2 : env.parse_args (env.load_command_table args)
        (env.load_arguments (rudimentary_get_command args).1)
        (normalizeHelp (rudimentary_get_command args).2) = Except.ok ns)
    (hv : validation_try env.app_validator ns = (calls, nsR, some e)) :
    (∀ m, e = VErr.cli m → (execute env initial args).outcome = Outcome.cliError m)
    ∧ (∀ m, e = VErr.other m →
        (execute env initial args).outcome
          = Outcome.validationError (nsR.parser.getD env.selfParser) m) := by
  have hcore : (execute env initial args).outcome
      = (executeCore env (initData initial) (env.load_command_table args)
          (env.load_arguments (rudimentary_get_command args).1)
          (rudimentary_get_command args).2).outcome := rfl
  constructor <;> intro m hm <;> subst hm <;>
    (rw [hcore]; simp [executeCore, h1, h2, validation, hv])

/-- Witness for C5: a command-level validator raising a non-CLI exception
with message `"boom"` makes `execute` fail with a validation error carrying
the same message, reported on the top-level parser. -/
theorem validator_error_conversion_witness :
    (execute wEnvV none ["grp", "cmd"]).outcome = Outcome.validationError 0 "boom" :=
  (validator_error_conversion wEnvV none ["grp", "cmd"] wNsV
    [⟨7, wNsV⟩] wNsV (VErr.other "boom") rfl rfl rfl).2 "boom" rfl

/-! ## Success-path characterization of `execute` (helper for C6, C9, C10) -/

/-- The success path of `executeCore`, fully characterized. -/
theorem executeCore_ok (env : Env V) (d : InvData V)
    (tbl : List (String × CLICommand V)) (sch : List (String × V))
    (as : List String) (ns ns1 : ParsedNS V) (calls : List (VCall V))
    (entry : CLICommand V) (qa : DVal V)
    (h1 : as.isEmpty = false)
    (h2 : env.parse_args tbl sch (normalizeHelp as) = Except.ok ns)
    (h3 : validation env.app_validator env.selfParser ns = (calls, ns1, VResult.ok))
    (h4 : (tbl.find? (fun kv => kv.1 == ns1.command)).map (fun kv => kv.2) = some entry)
    (h5 : (d.set "command" (DVal.str ns1.command)).get "query_active" = Except.ok qa) :
    executeCore env d tbl sch as =
      { trace := [TraceItem.enableAutocomplete, TraceItem.preParseArgs (normalizeHelp as),
            TraceItem.postParseArgs ns.command]
          ++ calls.map (fun c => TraceItem.validatorCall c.vid)
          ++ [TraceItem.colorInit]
          ++ ((collect_deprecations env.resolve_deprecate_info ns1).1).map
              (fun w => TraceItem.printWarning w.message)
          ++ [TraceItem.colorDeinit,
              TraceItem.handlerInvoked (filter_params ns1.fields),
              TraceItem.transformResult (rawResult env ns1),
              TraceItem.filterResult (env.transform_hook (rawResult env ns1))],
        data := d.set "command" (DVal.str ns1.command),
        ns := some (collect_deprecations env.resolve_deprecate_info ns1).2,
        outcome := Outcome.ok
          { result := env.filter_hook (env.transform_hook (rawResult env ns1)),
            table_transformer := entry.table_transformer,
            is_query_active := qa } } := by
  simp [executeCore, h1, h2, h3, h4, h5, rawResult]

/-! ## C6: Result-pipeline event ordering -/

/-- C6. Result-pipeline event ordering: any run that reaches the result
stage fires, in order, `pre-command-table-create`,
`post-command-table-create`, `command-table-loaded`, `pre-parse-args`,
`post-parse-args`, `transform-result`, `filter-result`.  The
`transform-result` event observes the normalized handler result, the
`filter-result` event (always second) observes the value left by the
transform hook, and the returned Command Result Item payload equals the
shared payload's value after both hooks have run. -/
theorem result_pipeline_order (env : Env V) (initial : Option (InvData V))
    (args : List String) (ns ns1 : ParsedNS V) (calls : List (VCall V))
    (entry : CLICommand V) (qa : DVal V)
    (h1 : (rudimentary_get_command args).2.isEmpty = false)
    (h2 : env.parse_args (env.load_command_table args)
        (env.load_arguments (rudimentary_get_command args).1)
        (normalizeHelp (rudimentary_get_command args).2) = Except.ok ns)
    (h3 : validation env.app_validator env.selfParser ns = (calls, ns1, VResult.ok))
    (h4 : ((env.load_command_table args).find? (fun kv => kv.1 == ns1.command)).map
        (fun kv => kv.2) = some entry)
    (h5 : ((initData initial).set "command" (DVal.str ns1.command)).get "query_active"
        = Except.ok qa) :
    execute env initial args =
      { trace := [TraceItem.preCmdTblCreate args, TraceItem.postCmdTblCreate,
            TraceItem.cmdTblLoaded, TraceItem.enableAutocomplete,
            TraceItem.preParseArgs (normalizeHelp (rudimentary_get_command args).2),
            TraceItem.postParseArgs ns.command]
          ++ calls.map (fun c => TraceItem.validatorCall c.vid)
          ++ [TraceItem.colorInit]
          ++ ((collect_deprecations env.resolve_deprecate_info ns1).1).map
              (fun w => TraceItem.printWarning w.message)
          ++ [TraceItem.colorDeinit,
              TraceItem.handlerInvoked (filter_params ns1.fields),
              TraceItem.transformResult (rawResult env ns1),
              TraceItem.filterResult (env.transform_hook (rawResult env ns1))],
        data := (initData initial).set "command" (DVal.str ns1.command),
        ns := some (collect_deprecations env.resolve_deprecate_info ns1).2,
        outcome := Outcome.ok
          { result := env.filter_hook (env.transform_hook (rawResult env ns1)),
            table_transformer := entry.table_transformer,
            is_query_active := qa } } := by
  have hc := executeCore_ok env (initData initial) (env.load_command_table args)
    (env.load_arguments (rudimentary_get_command args).1)
    (rudimentary_get_command args).2 ns ns1 calls entry qa h1 h2 h3 h4 h5
  show ({ executeCore env (initData initial) (env.load_command_table args)
      (env.load_arguments (rudimentary_get_command args).1)
      (rudimentary_get_command args).2 with
    trace := [TraceItem.preCmdTblCreate args, TraceItem.postCmdTblCreate,
        TraceItem.cmdTblLoaded]
      ++ (executeCore env (initData initial) (env.load_command_table args)
          (env.load_arguments (rudimentary_get_command args).1)
          (rudimentary_get_command args).2).trace } : ExecResult V) = _
  rw [hc]
  rfl

/-- Witness for C6: the concrete successful run yields the result shaped by
`todict`, then the transform hook, then the filter hook. -/
theorem result_pipeline_order_witness :
    (execute wEnv none ["grp", "cmd"]).outcome
      = Outcome.ok { result := 435, table_transformer := none, is_query_active := DVal.none_ } := by
  have h := result_pipeline_order wEnv none ["grp", "cmd"] wNs wNs1 [] wCmd DVal.none_
    rfl rfl rfl rfl rfl
  rw [h]
  rfl

/-! ## C10: in-place mutation of the parsed structure -/

theorem filterMap_traceWarning_validators (calls : List (VCall V)) :
    (calls.map (fun c => TraceItem.validatorCall c.vid)).filterMap
      (traceWarning (V := V)) = [] := by
  induction calls with
  | nil => rfl
  | cons c cs ih => simp [List.filterMap_cons, traceWarning, ih]

theorem filterMap_traceWarning_printed (deps : List (Warning V)) :
    (deps.map (fun w => TraceItem.printWarning w.message)).filterMap
      (traceWarning (V := V)) = deps.map Warning.message := by
  induction deps with
  | nil => rfl
  | cons w ws ih => simp [List.filterMap_cons, traceWarning, ih]

theorem filterMap_comp_traceWarning_validators (calls : List (VCall V)) :
    List.filterMap ((traceWarning (V := V)) ∘ fun c => TraceItem.validatorCall c.vid)
      calls = [] := by
  induction calls with
  | nil => rfl
  | cons c cs ih => simp [List.filterMap_cons, Function.comp, traceWarning, ih]

theorem filterMap_comp_traceWarning_printed (deps : List (Warning V)) :
    List.filterMap ((traceWarning (V := V)) ∘ fun w => TraceItem.printWarning w.message)
      deps = deps.map Warning.message := by
  induction deps with
  | nil => rfl
  | cons w ws ih => simp [List.filterMap_cons, Function.comp, traceWarning, ih]

/-- C10. When the parsed structure carries an `_argument_deprecations`
attribute, the command-level and implicit entries are appended onto that
very list: after a successful run the structure's argument-deprecation list
also contains the explicit command-level and synthesized implicit entries,
and the printed warning list is exactly that extended list's messages. -/
theorem deprecations_mutate_parsed_ns (env : Env V) (initial : Option (InvData V))
    (args : List String) (ns ns1 : ParsedNS V) (calls : List (VCall V))
    (entry : CLICommand V) (qa : DVal V) (l : List (Warning V))
    (h1 : (rudimentary_get_command args).2.isEmpty = false)
    (h2 : env.parse_args (env.load_command_table args)
        (env.load_arguments (rudimentary_get_command args).1)
        (normalizeHelp (rudimentary_get_command args).2) = Except.ok ns)
    (h3 : validation env.app_validator env.selfParser ns = (calls, ns1, VResult.ok))
    (h4 : ((env.load_command_table args).find? (fun kv => kv.1 == ns1.command)).map
        (fun kv => kv.2) = some entry)
    (h5 : ((initData initial).set "command" (DVal.str ns1.command)).get "query_active"
        = Except.ok qa)
    (ha : ns1.argument_deprecations = some l) :
    (execute env initial args).ns
      = some { ns1 with
          argument_deprecations := some (l ++ explicitPart ns1.func
            ++ implicitPart env.resolve_deprecate_info ns1.func) }
    ∧ (execute env initial args).trace.filterMap traceWarning
      = (l ++ explicitPart ns1.func
          ++ implicitPart env.resolve_deprecate_info ns1.func).map Warning.message := by
  have hcollect : collect_deprecations env.resolve_deprecate_info ns1
      = (l ++ explicitPart ns1.func ++ implicitPart env.resolve_deprecate_info ns1.func,
        { ns1 with
          argument_deprecations := some (l ++ explicitPart ns1.func
            ++ implicitPart env.resolve_deprecate_info ns1.func) }) := by
    simp [collect_deprecations, ha]
  have hc := executeCore_ok env (initData initial) (env.load_command_table args)
    (env.load_arguments (rudimentary_get_command args).1)
    (rudimentary_get_command args).2 ns ns1 calls entry qa h1 h2 h3 h4 h5
  constructor
  · show (executeCore env (initData initial) (env.load_command_table args)
        (env.load_arguments (rudimentary_get_command args).1)
        (rudimentary_get_command args).2).ns = _
    rw [hc, hcollect]
  · show ([TraceItem.preCmdTblCreate args, TraceItem.postCmdTblCreate,
        TraceItem.cmdTblLoaded]
        ++ (executeCore env (initData initial) (env.load_command_table args)
            (env.load_arguments (rudimentary_get_command args).1)
            (rudimentary_get_command args).2).trace).filterMap traceWarning = _
    rw [hc, hcollect]
    simp [List.filterMap_append, List.filterMap_cons, traceWarning,
      filterMap_traceWarning_validators, filterMap_traceWarning_printed,
      filterMap_comp_traceWarning_validators, filterMap_comp_traceWarning_printed]

/-- Witness for C10: with deprecation metadata on the ancestor group, the
post-run parsed structure's deprecation list holds the synthesized implicit
entry. -/
theorem deprecations_mutate_parsed_ns_witness :
    (execute wEnvDep none ["grp", "cmd"]).ns
      = some { wNs1 with
          argument_deprecations := some [Warning.implicitCmd
            { object_type := "command", message := "grp is deprecated", fields := [("target", 5)] }] } := by
  have h := deprecations_mutate_parsed_ns wEnvDep none ["grp", "cmd"] wNs wNs1 [] wCmd
    DVal.none_ [] rfl rfl rfl rfl rfl rfl
  rw [h.1]
  rfl

/-! ## C7: Empty-argument run -/

/-- C7. `execute([])` enables autocompletion, shows the welcome view, and
returns the "no result" signal: its trace contains no parse, validation or
handler step, its outcome is `noResult`, and the invocation state is
untouched beyond construction. -/
theorem empty_args_no_op (env : Env V) (initial : Option (InvData V)) :
    execute env initial [] =
      { trace := [TraceItem.preCmdTblCreate [], TraceItem.postCmdTblCreate,
          TraceItem.cmdTblLoaded, TraceItem.enableAutocomplete, TraceItem.showWelcome],
        data := initData initial, ns := none, outcome := Outcome.noResult } := rfl

/-! ## C9: Invocation State -/

/-- Across every path, `executeCore` leaves the invocation state either
untouched or with only the `command` key rebound; and a successful outcome's
query flag is exactly what reading `query_active` from that state yields. -/
theorem executeCore_shape (env : Env V) (d : InvData V)
    (tbl : List (String × CLICommand V)) (sch : List (String × V))
    (as : List String) :
    ((executeCore env d tbl sch as).data = d
      ∨ ∃ s, (executeCore env d tbl sch as).data = d.set "command" (DVal.str s))
    ∧ (∀ item, (executeCore env d tbl sch as).outcome = Outcome.ok item →
        ∃ s, (d.set "command" (DVal.str s)).get "query_active"
          = Except.ok item.is_query_active) := by
  simp only [executeCore]
  split
  · exact ⟨Or.inl rfl, by intro item hitem; cases hitem⟩
  · split
    · exact ⟨Or.inl rfl, by intro item hitem; cases hitem⟩
    · split
      · exact ⟨Or.inl rfl, by intro item hitem; cases hitem⟩
      · exact ⟨Or.inl rfl, by intro item hitem; cases hitem⟩
      · split
        · exact ⟨Or.inr ⟨_, rfl⟩, by intro item hitem; cases hitem⟩
        · split
          · exact ⟨Or.inr ⟨_, rfl⟩, by intro item hitem; cases hitem⟩
          · next qa heq4 =>
              refine ⟨Or.inr ⟨_, rfl⟩, ?_⟩
              intro item hitem
              cases hitem
              exact ⟨_, heq4⟩

/-- C9 (amended). When the controller is constructed without caller-supplied
`initial_data` (the `defaultdict` default): reading any unknown key from the
invocation state yields the absent value rather than failing, the state
always contains `command` (a string, `'unknown'` until resolved), and a
successful `execute` returns a Command Result Item whose query-active flag
is the state's `query_active` value — absent, since nothing set it. -/
theorem invocation_state_defaults (env : Env V) (args : List String) :
    (∀ k, k ≠ "command" → (execute env none args).data.get k = Except.ok DVal.none_)
    ∧ (∃ s, (execute env none args).data.get "command" = Except.ok (DVal.str s))
    ∧ (∀ item, (execute env none args).outcome = Outcome.ok item →
        item.is_query_active = DVal.none_) := by
  have hget_other : ∀ (s k : String), k ≠ "command" →
      InvData.get (V := V) ⟨[("command", DVal.str s)], true⟩ k
        = Except.ok DVal.none_ := by
    intro s k hk
    have hbeq : ("command" == k) = false := beq_eq_false_iff_ne.mpr (Ne.symm hk)
    simp [InvData.get, List.find?_cons, hbeq]
  have hget_cmd : ∀ s : String,
      InvData.get (V := V) ⟨[("command", DVal.str s)], true⟩ "command"
        = Except.ok (DVal.str s) := by
    intro s
    simp [InvData.get, List.find?_cons]
  have hshape := executeCore_shape env (initData none) (env.load_command_table args)
    (env.load_arguments (rudimentary_get_command args).1) (rudimentary_get_command args).2
  have hdata : (execute env none args).data
      = (executeCore env (initData none) (env.load_command_table args)
          (env.load_arguments (rudimentary_get_command args).1)
          (rudimentary_get_command args).2).data := rfl
  have hout : (execute env none args).outcome
      = (executeCore env (initData none) (env.load_command_table args)
          (env.load_arguments (rudimentary_get_command args).1)
          (rudimentary_get_command args).2).outcome := rfl
  have hset : ∀ s : String, (initData (V := V) none).set "command" (DVal.str s)
      = ⟨[("command", DVal.str s)], true⟩ := by
    intro s
    simp [initData, InvData.set, setEntry]
  refine ⟨?_, ?_, ?_⟩
  · intro k hk
    rw [hdata]
    rcases hshape.1 with hcase | ⟨s, hcase⟩
    · rw [hcase]
      exact hget_other "unknown" k hk
    · rw [hcase, hset s]
      exact hget_other s k hk
  · rw [hdata]
    rcases hshape.1 with hcase | ⟨s, hcase⟩
    · rw [hcase]
      exact ⟨"unknown", hget_cmd "unknown"⟩
    · rw [hcase, hset s]
      exact ⟨s, hget_cmd s⟩
  · intro item hitem
    rw [hout] at hitem
    obtain ⟨s, hs⟩ := hshape.2 item hitem
    rw [hset s, hget_other s "query_active" (by decide)] at hs
    injection hs with h
    exact h.symm

/-- Witness for C9 (amended) at the concrete environment. -/
theorem invocation_state_defaults_witness :
    (execute wEnv none ["grp", "cmd"]).data.get "zzz" = Except.ok DVal.none_
    ∧ (CommandResultItem.mk 435 (none : Option Nat) DVal.none_).is_query_active
      = DVal.none_ :=
  ⟨(invocation_state_defaults wEnv ["grp", "cmd"]).1 "zzz" (by decide),
    (invocation_state_defaults wEnv ["grp", "cmd"]).2.2
      ⟨435, none, DVal.none_⟩ rfl⟩

/-- Counterexample for C9 as stated: with a caller-supplied plain (non-
defaultdict) `initial_data` mapping, reading an unknown key raises
`KeyError` rather than yielding the absent value, and an otherwise
successful run of `execute` fails with `KeyError 'query_active'` instead of
returning a Command Result Item. -/
theorem invocation_state_plain_dict_counterexample :
    (execute wEnv (some cxInitial) ["grp", "cmd"]).outcome
      = Outcome.keyError "query_active"
    ∧ (initData (some cxInitial)).get "zzz" = Except.error "zzz" :=
  ⟨rfl, rfl⟩

/-! ## C8: Help-token normalization equivalence -/

theorem strLower_data (s : String) : (strLower s).data = s.data.map lowerChar := rfl

/-- A token that lower-cases to `"help"` does not start with a dash, so the
rudimentary scan consumes (and lower-cases) it. -/
theorem startsWithDash_of_strLower_help (s : String) (hs : strLower s = "help") :
    startsWithDash s = false := by
  have hd : s.data.map lowerChar = "help".data := by
    rw [← strLower_data, hs]
  cases hdata : s.data with
  | nil =>
    rw [hdata] at hd
    exact absurd hd (by decide)
  | cons c cs =>
    rw [hdata] at hd
    have hhelp : ("help".data) = ['h', 'e', 'l', 'p'] := rfl
    rw [hhelp, List.map_cons, List.cons.injEq] at hd
    have hc : lowerChar c = 'h' := hd.1
    have hcne : c ≠ '-' := by
      intro hcontra
      rw [hcontra] at hc
      exact absurd hc (by decide)
    simp [startsWithDash, hdata, hcne]

/-- Helper: `executeCore` depends on its argument list only through emptiness and
the help-normalized form. -/
theorem executeCore_congr_norm (env : Env V) (d : InvData V)
    (tbl : List (String × CLICommand V)) (sch : List (String × V))
    (as1 as2 : List String) (h1 : as1.isEmpty = false) (h2 : as2.isEmpty = false)
    (hn : normalizeHelp as1 = normalizeHelp as2) :
    executeCore env d tbl sch as1 = executeCore env d tbl sch as2 := by
  simp [executeCore, h1, h2, hn]

/-- Helper: `execute` decomposed into the table phase and `executeCore`. -/
theorem execute_decomp (env : Env V) (initial : Option (InvData V))
    (args : List String) :
    execute env initial args =
      { executeCore env (initData initial) (env.load_command_table args)
          (env.load_arguments (rudimentary_get_command args).1)
          (rudimentary_get_command args).2 with
        trace := [TraceItem.preCmdTblCreate args, TraceItem.postCmdTblCreate,
            TraceItem.cmdTblLoaded]
          ++ (executeCore env (initData initial) (env.load_command_table args)
              (env.load_arguments (rudimentary_get_command args).1)
              (rudimentary_get_command args).2).trace } := rfl

/-- C8. Help-token normalization equivalence: a first token equal to `help`
in any letter case is rewritten to `--help` before parsing, so — provided
the table phase treats the two argument vectors alike — `execute [s]` and
`execute ["--help"]` produce the same outcome, invocation state, parsed
structure and trace (apart from the raw-args payload of the very first
event, raised before normalization). -/
theorem help_token_equivalence (env : Env V) (initial : Option (InvData V))
    (s : String) (hs : strLower s = "help")
    (h1 : env.load_command_table [s] = env.load_command_table ["--help"])
    (h2 : env.load_arguments "help" = env.load_arguments "") :
    (execute env initial [s]).outcome = (execute env initial ["--help"]).outcome
    ∧ (execute env initial [s]).data = (execute env initial ["--help"]).data
    ∧ (execute env initial [s]).ns = (execute env initial ["--help"]).ns
    ∧ (execute env initial [s]).trace.drop 1
      = (execute env initial ["--help"]).trace.drop 1 := by
  have hdash := startsWithDash_of_strLower_help s hs
  have hrc : rudimentary_get_command [s] = ("help", ["help"]) := by
    simp [rudimentary_get_command, rudimentaryScan, hdash, hs, joinSpace]
  have hrc2 : rudimentary_get_command ["--help"] = ("", ["--help"]) := by decide
  have hcore : executeCore env (initData initial) (env.load_command_table ["--help"])
      (env.load_arguments "") ["help"]
      = executeCore env (initData initial) (env.load_command_table ["--help"])
        (env.load_arguments "") ["--help"] :=
    executeCore_congr_norm env (initData initial) _ _ _ _ (by decide) (by decide)
      (by decide)
  refine ⟨?_, ?_, ?_, ?_⟩ <;>
    simp only [execute_decomp, hrc, hrc2, h1, h2, hcore, List.cons_append,
      List.nil_append, List.drop_succ_cons, List.drop_zero]

/-- Witness for C8: `execute ["HELP"]` and `execute ["--help"]` give the
same outcome against the concrete environment. -/
theorem help_token_equivalence_witness :
    (execute wEnv none ["HELP"]).outcome = (execute wEnv none ["--help"]).outcome :=
  (help_token_equivalence wEnv none "HELP" (by decide) rfl rfl).1

/-! ## C2: one deprecation warning per (command, level) -/

/-- Counterexample for C2 as stated: when the command `"g c"` carries an
explicit command-level deprecation and its ancestor group `"g"` also carries
deprecation metadata, the collected warning list contains BOTH the explicit
command-level entry and the synthesized implicit entry, and both have
`object_type = "command"` — the code never suppresses the implicit entry in
favour of the explicit one. -/
theorem deprecation_single_warning_counterexample :
    (collect_deprecations cxLookup cxNs).1
      = [Warning.explicitCmd cxCmdInfo, Warning.implicitCmd cxImplicitInfo]
    ∧ cxCmdInfo.object_type = "command"
    ∧ cxImplicitInfo.object_type = "command" := by
  refine ⟨by decide, rfl, rfl⟩

/-- C2 (amended). At most one explicit command-level entry and at most one
implicit entry are surfaced per run; the implicit one is computed only as a
fallback for the command itself — it is derived from the command's ancestor
groups via the resolver-search, never from argument-level metadata — and the
explicit entry precedes the implicit one.  But when both an explicit
command-level deprecation and an ancestor-derived implicit one exist, both
appear in the warning list. -/
theorem deprecation_warning_collection_amended
    (lookup : String → Option (DeprecateInfo V)) (ns : ParsedNS V)
    (h : ∀ w ∈ ns.argument_deprecations.getD [], w.isArg = true) :
    (collect_deprecations lookup ns).1.countP Warning.isExplicitCmd ≤ 1
    ∧ (collect_deprecations lookup ns).1.countP Warning.isImplicitCmd ≤ 1
    ∧ (collect_deprecations lookup ns).1
      = ns.argument_deprecations.getD [] ++ explicitPart ns.func
        ++ implicitPart lookup ns.func
    ∧ (∀ i, Warning.implicitCmd i ∈ (collect_deprecations lookup ns).1 →
        ∃ d, searchImplicit lookup ((pySplit ns.func.name).dropLast) = some d
          ∧ i = makeImplicit d) := by
  have hc : (collect_deprecations lookup ns).1
      = ns.argument_deprecations.getD [] ++ explicitPart ns.func
        ++ implicitPart lookup ns.func := rfl
  have hz1 : (ns.argument_deprecations.getD []).countP
      (Warning.isExplicitCmd (V := V)) = 0 := by
    rw [List.countP_eq_zero]
    intro w hw
    have := h w hw
    cases w <;> simp_all [Warning.isArg, Warning.isExplicitCmd]
  have hz2 : (ns.argument_deprecations.getD []).countP
      (Warning.isImplicitCmd (V := V)) = 0 := by
    rw [List.countP_eq_zero]
    intro w hw
    have := h w hw
    cases w <;> simp_all [Warning.isArg, Warning.isImplicitCmd]
  have he1 : (explicitPart (V := V) ns.func).countP Warning.isExplicitCmd ≤ 1 := by
    unfold explicitPart
    cases ns.func.deprecate_info <;> simp [Warning.isExplicitCmd, List.countP_cons]
  have he2 : (explicitPart (V := V) ns.func).countP Warning.isImplicitCmd = 0 := by
    unfold explicitPart
    cases ns.func.deprecate_info <;> simp [Warning.isImplicitCmd, List.countP_cons]
  have hi1 : (implicitPart lookup ns.func).countP Warning.isExplicitCmd = 0 := by
    unfold implicitPart
    cases resolveImplicitDeprecation lookup ns.func.name <;>
      simp [Warning.isExplicitCmd, List.countP_cons]
  have hi2 : (implicitPart lookup ns.func).countP Warning.isImplicitCmd ≤ 1 := by
    unfold implicitPart
    cases resolveImplicitDeprecation lookup ns.func.name <;>
      simp [Warning.isImplicitCmd, List.countP_cons]
  refine ⟨?_, ?_, hc, ?_⟩
  · rw [hc, List.countP_append, List.countP_append, hz1, hi1]
    omega
  · rw [hc, List.countP_append, List.countP_append, hz2, he2]
    omega
  · intro i hi
    rw [hc] at hi
    rcases List.mem_append.mp hi with hmem | hmem
    · rcases List.mem_append.mp hmem with hmem2 | hmem2
      · have := h _ hmem2
        simp [Warning.isArg] at this
      · exfalso
        revert hmem2
        unfold explicitPart
        cases ns.func.deprecate_info <;> simp
    · revert hmem
      unfold implicitPart
      cases hres : resolveImplicitDeprecation lookup ns.func.name with
      | none => simp
      | some j =>
        intro hmem
        simp at hmem
        obtain ⟨d, hd, hjd⟩ := Option.map_eq_some'.mp hres
        subst hmem
        exact ⟨d, hd, hjd.symm⟩

/-- Witness for C2 (amended) at the counterexample fixture: even there, each
of the explicit and implicit entries occurs at most once. -/
theorem deprecation_warning_collection_amended_witness :
    (collect_deprecations cxLookup cxNs).1.countP Warning.isExplicitCmd ≤ 1
    ∧ (collect_deprecations cxLookup cxNs).1.countP Warning.isImplicitCmd ≤ 1 := by
  have h := deprecation_warning_collection_amended cxLookup cxNs
    (by intro w hw; simp [cxNs] at hw)
  exact ⟨h.1, h.2.1⟩

end Knack
